import Mathlib

/-!
Shallow embedding of the PNG scanline-cache core found in the reviewed
repository (`PNGDataset` / `PNGRasterBand`): `Restart`, `FlushCache`,
`LoadScanline`, `IReadBlock` and `IWriteBlock`.

Modelling conventions:
* Machine integers (`int` fields `nBufferStartLine`, `nBufferLines`,
  `nLastLineRead`, line numbers) become `Int`; sizes become `Nat`.
* The underlying libpng decoder is deterministic: its decoded output is
  captured by an abstract image function `image : Nat → Nat → Nat`
  mapping a row index and a byte offset inside the pixel-interleaved row
  to the produced byte.  `png_read_rows` for the next row `r` yields
  `rowBytes r`; `png_read_image` yields every row in order.
* `CPLMalloc` never returns `NULL` in the original library (it aborts),
  so the progressive single-row allocation always succeeds; `VSIMalloc`
  (the whole-image allocation of the interlaced branch) may fail, which
  is modelled by the explicit `allocOk` flag.
* Decoder-side structures (`hPNG`, `psPNGInfo`, the file handle) are not
  part of the observable cache state; their net effect on decoding is
  fully mirrored by the cursor `nLastLineRead`, which the code keeps in
  lock step with the decoder position.
* Each operation additionally returns the list of decode events it
  performed (restarts, single-row decodes, whole-image decodes), so that
  claims counting decode work are statable.
* The freshly `CPLMalloc`ed single-row buffer is uninitialized memory; it
  is modelled as zero-filled.  Every path that returns it to the caller
  first overwrites it completely with a decoded row, so the filler value
  is unobservable in well-formed uses.
-/

/-- The error type `CPLErr`, restricted to the two values this code produces. -/
inductive CPLErr where
  | CE_None
  | CE_Failure
deriving DecidableEq, Repr

/-- One observable interaction with the underlying sequential decoder. -/
inductive PNGEvent where
  /-- Marks that `PNGDataset::Restart()` was invoked (rewind + reinit the decoder). -/
  | restart
  /-- Marks that `png_read_rows(hPNG, &row, NULL, 1)` produced row `r`. -/
  | decodeRow (r : Int)
  /-- Marks that `png_read_image` decoded the whole image (interlaced branch). -/
  | decodeWhole
deriving DecidableEq, Repr

/-- The immutable parameters fixed when the dataset is opened, plus the
abstract decoded image content. -/
structure PNGParams where
  nRasterXSize : Nat
  nRasterYSize : Nat
  nBands : Nat
  nBitDepth : Nat
  bInterlaced : Bool
  image : Nat → Nat → Nat

/-- The mutable cache state of a `PNGDataset`: the scanline buffer
(`NULL` modelled as `none`), the buffered-range descriptors and the
decode cursor. -/
structure PNGState where
  pabyBuffer : Option (List Nat)
  nBufferStartLine : Int
  nBufferLines : Int
  nLastLineRead : Int
deriving DecidableEq, Repr

namespace PNGDataset

/-- The constructor `PNGDataset::PNGDataset()`: no buffer, empty range,
cursor at the `-1` sentinel. -/
def init : PNGState :=
  { pabyBuffer := none, nBufferStartLine := 0, nBufferLines := 0, nLastLineRead := -1 }

/-- Bytes per sample: `nBitDepth == 16 ? 2 : 1` (as computed in
`IReadBlock`/`IWriteBlock`). -/
def nPixelSizeOf (p : PNGParams) : Nat :=
  if p.nBitDepth = 16 then 2 else 1

/-- Bytes per pixel across all bands: `nPixelSize * nBands`
(`LoadScanline` computes the same value as `2*GetRasterCount()` or
`1*GetRasterCount()`). -/
def nPixelOffsetOf (p : PNGParams) : Nat :=
  nPixelSizeOf p * p.nBands

/-- The pixel-interleaved byte content the decoder produces for row `r`. -/
def rowBytes (p : PNGParams) (r : Nat) : List Nat :=
  (List.range (nPixelOffsetOf p * p.nRasterXSize)).map (p.image r)

/-- The whole decoded image, rows 0 … height-1 concatenated, as
`png_read_image` leaves it in the buffer of the interlaced branch. -/
def wholeImage (p : PNGParams) : List Nat :=
  (List.range p.nRasterYSize).flatMap (rowBytes p)

/-- The method `PNGDataset::Restart()`: destroys and recreates the decoder, rewinds
the file and re-reads the header (decoder-side, outside the cache
state) and resets `nLastLineRead` to the sentinel `-1`. -/
def Restart (s : PNGState) : PNGState × List PNGEvent :=
  ({ s with nLastLineRead := -1 }, [PNGEvent.restart])

/-- The method `PNGDataset::FlushCache()`: only when a buffer exists
(`if( pabyBuffer != NULL )`) it is freed and the range descriptors are
zeroed; with a `NULL` buffer the state is left untouched (the cursor is
left alone in both cases). -/
def FlushCache (s : PNGState) : PNGState :=
  if s.pabyBuffer ≠ none then
    { s with pabyBuffer := none, nBufferStartLine := 0, nBufferLines := 0 }
  else s

/-- The `while( nLine > nLastLineRead )` loop of `LoadScanline`: each
iteration decodes the next row into the single-row buffer (overwriting
it) and increments the cursor.  `fuel` bounds the iteration count; the
callers pass exactly `(nLine - nLastLineRead).toNat`, the number of
iterations the C loop performs. -/
def readLoop (p : PNGParams) (nLine : Int) : Nat → PNGState → PNGState × List PNGEvent
  | 0, s => (s, [])
  | fuel + 1, s =>
      if s.nLastLineRead < nLine then
        let s1 : PNGState :=
          { s with pabyBuffer := some (rowBytes p (s.nLastLineRead + 1).toNat),
                   nLastLineRead := s.nLastLineRead + 1 }
        let r := readLoop p nLine fuel s1
        (r.1, PNGEvent.decodeRow (s.nLastLineRead + 1) :: r.2)
      else (s, [])

/-- Whether row `nLine` is inside the currently buffered range — the
condition of the early return of `LoadScanline`
(`nLine >= nBufferStartLine && nLine < nBufferStartLine + nBufferLines`). -/
def servable (s : PNGState) (nLine : Int) : Prop :=
  s.nBufferStartLine ≤ nLine ∧ nLine < s.nBufferStartLine + s.nBufferLines

instance (s : PNGState) (nLine : Int) : Decidable (servable s nLine) := by
  unfold servable; infer_instance

/-- The method `PNGDataset::LoadScanline( int nLine )`, translated line by line.
`allocOk` is the outcome of the `VSIMalloc` call in the interlaced branch.
Returns the `CPLErr` result, the state after the call and the decode
events performed during it. -/
def LoadScanline (p : PNGParams) (allocOk : Bool) (s : PNGState) (nLine : Int) :
    CPLErr × PNGState × List PNGEvent :=
  if servable s nLine then
    (CPLErr.CE_None, s, [])
  else if p.bInterlaced then
    -- interlaced: restart if a previous decode happened, then set the
    -- range descriptors, then allocate, then decode the whole image
    let a := if s.nLastLineRead ≠ -1 then Restart s else (s, [])
    let s2 : PNGState :=
      { a.1 with nBufferStartLine := 0, nBufferLines := (p.nRasterYSize : Int) }
    if allocOk then
      let s3 : PNGState :=
        { s2 with pabyBuffer := some (wholeImage p),
                  nLastLineRead := (p.nRasterYSize : Int) - 1 }
      (CPLErr.CE_None, s3, a.2 ++ [PNGEvent.decodeWhole])
    else
      (CPLErr.CE_Failure, { s2 with pabyBuffer := none }, a.2)
  else
    -- progressive: ensure the single-row buffer exists, rewind if the
    -- requested row was already passed, then read up to the target row
    let s1 : PNGState :=
      if s.pabyBuffer = none then
        { s with pabyBuffer := some (List.replicate (nPixelOffsetOf p * p.nRasterXSize) 0) }
      else s
    let b := if nLine ≤ s1.nLastLineRead then Restart s1 else (s1, [])
    let c := readLoop p nLine (nLine - b.1.nLastLineRead).toNat b.1
    (CPLErr.CE_None,
     { c.1 with nBufferStartLine := nLine, nBufferLines := 1 },
     b.2 ++ c.2)

/-- The single-`memcpy` transfer of the fast path of `IReadBlock`
(`nPixelSize == nPixelOffset`): copy `n` consecutive scanline bytes into
(the front of) the caller buffer, which is exactly `n` bytes long. -/
def bulkCopy (scan : Nat → Nat) (n : Nat) : List Nat :=
  (List.range n).map scan

/-- The 1-byte strided gather loop of `IReadBlock`
(`nPixelSize == 1` branch): `pImage[i] = pabyScanline[i*nPixelOffset]`. -/
def stridedGather1 (scan : Nat → Nat) (off n : Nat) (out : List Nat) : List Nat :=
  (List.range n).foldl (fun o i => o.set i (scan (i * off))) out

/-- The 2-byte strided gather loop of `IReadBlock` (`nPixelSize == 2`
branch), exactly as written in the source, writing the two bytes of
pixel `i` to `pImage[i]` and `pImage[i+1]` sequentially. -/
def stridedGather2 (scan : Nat → Nat) (off n : Nat) (out : List Nat) : List Nat :=
  (List.range n).foldl
    (fun o i => (o.set i (scan (i * off))).set (i + 1) (scan (i * off + 1))) out

/-- The single-`memcpy` transfer of the fast path of `IWriteBlock`:
overwrite `n` consecutive scanline bytes starting at `base` with the
bytes of the caller. -/
def bulkWrite (img : Nat → Nat) (base : Int) (n : Nat) (buf : List Nat) : List Nat :=
  (List.range n).foldl (fun b (j : Nat) => b.set (base + (j : Int)).toNat (img j)) buf

/-- The 1-byte strided scatter loop of `IWriteBlock`:
`pabyScanline[i*nPixelOffset] = pImage[i]`. -/
def stridedScatter1 (img : Nat → Nat) (base : Int) (off n : Nat) (buf : List Nat) :
    List Nat :=
  (List.range n).foldl (fun b i => b.set (base + (i * off : Nat)).toNat (img i)) buf

/-- The 2-byte strided scatter loop of `IWriteBlock`, exactly as written
in the source: it stores `pImage[i]` and `pImage[i+1]` as the two bytes
of pixel `i`. -/
def stridedScatter2 (img : Nat → Nat) (base : Int) (off n : Nat) (buf : List Nat) :
    List Nat :=
  (List.range n).foldl
    (fun b i => (b.set (base + (i * off : Nat)).toNat (img i)).set
                  (base + (i * off + 1 : Nat)).toNat (img (i + 1))) buf

/-- The byte offset, inside `pabyBuffer`, of the first sample of band
`nBand` in row `nBlockYOff`:
`(nBlockYOff - nBufferStartLine) * nPixelOffset * nXSize + nPixelSize * (nBand-1)`. -/
def scanlineBase (p : PNGParams) (s : PNGState) (nBand : Nat) (nBlockYOff : Int) : Int :=
  (nBlockYOff - s.nBufferStartLine) * ((nPixelOffsetOf p : Int) * (p.nRasterXSize : Int))
    + (nPixelSizeOf p : Int) * ((nBand : Int) - 1)

/-- The method `PNGRasterBand::IReadBlock`: load the scanline, then transfer the
samples of band `nBand` from the interleaved buffer into the caller
block buffer `pImage` (of length `nPixelSize * nXSize`).  Returns the
error code, the state after the call, the caller buffer after the
transfer and the decode events. -/
def IReadBlock (p : PNGParams) (allocOk : Bool) (nBand : Nat) (s : PNGState)
    (nBlockYOff : Int) (pImage : List Nat) :
    CPLErr × PNGState × List Nat × List PNGEvent :=
  let sz := nPixelSizeOf p
  let off := nPixelOffsetOf p
  let r := LoadScanline p allocOk s nBlockYOff
  if r.1 ≠ CPLErr.CE_None then (r.1, r.2.1, pImage, r.2.2)
  else
    let buf := r.2.1.pabyBuffer.getD []
    let base := scanlineBase p r.2.1 nBand nBlockYOff
    let scan : Nat → Nat := fun j => buf.getD (base + (j : Int)).toNat 0
    let out :=
      if sz = off then bulkCopy scan (sz * p.nRasterXSize)
      else if sz = 1 then stridedGather1 scan off p.nRasterXSize pImage
      else stridedGather2 scan off p.nRasterXSize pImage
    (CPLErr.CE_None, r.2.1, out, r.2.2)

/-- The method `PNGRasterBand::IWriteBlock`: load the scanline (the write path
first decodes the target row), then scatter the per-band caller
samples into the interleaved buffer. -/
def IWriteBlock (p : PNGParams) (allocOk : Bool) (nBand : Nat) (s : PNGState)
    (nBlockYOff : Int) (pImage : List Nat) :
    CPLErr × PNGState × List PNGEvent :=
  let sz := nPixelSizeOf p
  let off := nPixelOffsetOf p
  let r := LoadScanline p allocOk s nBlockYOff
  if r.1 ≠ CPLErr.CE_None then (r.1, r.2.1, r.2.2)
  else
    let buf := r.2.1.pabyBuffer.getD []
    let base := scanlineBase p r.2.1 nBand nBlockYOff
    let img : Nat → Nat := fun i => pImage.getD i 0
    let buf1 :=
      if sz = off then bulkWrite img base (sz * p.nRasterXSize) buf
      else if sz = 1 then stridedScatter1 img base off p.nRasterXSize buf
      else stridedScatter2 img base off p.nRasterXSize buf
    (CPLErr.CE_None, { r.2.1 with pabyBuffer := some buf1 }, r.2.2)

/-- Repeated `LoadScanline` calls folded over a list of row requests; errors of
individual calls do not stop the run (each block request is
independent).  Returns the final state and the concatenated event
trace. -/
def run (p : PNGParams) (allocOk : Bool) : PNGState → List Int → PNGState × List PNGEvent
  | s, [] => (s, [])
  | s, r :: rs =>
      let a := LoadScanline p allocOk s r
      let b := run p allocOk a.2.1 rs
      (b.1, a.2.2 ++ b.2)

def isRestart : PNGEvent → Bool
  | PNGEvent.restart => true
  | _ => false

def isDecodeRow : PNGEvent → Bool
  | PNGEvent.decodeRow _ => true
  | _ => false

def isDecodeWhole : PNGEvent → Bool
  | PNGEvent.decodeWhole => true
  | _ => false

/-- Number of `Restart()` invocations recorded in a trace. -/
def countRestarts (evs : List PNGEvent) : Nat := evs.countP isRestart

/-- Number of single-row `png_read_rows` decode calls in a trace. -/
def countRowDecodes (evs : List PNGEvent) : Nat := evs.countP isDecodeRow

/-- Number of whole-image `png_read_image` decode calls in a trace. -/
def countWholeDecodes (evs : List PNGEvent) : Nat := evs.countP isDecodeWhole

/-- The event trace of `k` consecutive single-row decodes starting with
row `c + 1` (for a decoder whose cursor is at `c`). -/
def rowEventsN (c : Int) : Nat → List PNGEvent
  | 0 => []
  | k + 1 => PNGEvent.decodeRow (c + 1) :: rowEventsN (c + 1) k

/-- Well-formedness of a decode trace relative to a starting cursor `c`:
every single-row decode produces exactly the row after the current
cursor, and a restart resets the cursor to the sentinel.  This captures
the "strictly forward, each row at most once per restart epoch"
discipline of the sequential decoder. -/
def goodTrace : Int → List PNGEvent → Bool
  | _, [] => true
  | c, PNGEvent.decodeRow r :: rest => r = c + 1 && goodTrace (c + 1) rest
  | _, PNGEvent.restart :: rest => goodTrace (-1) rest
  | c, PNGEvent.decodeWhole :: rest => goodTrace c rest

/-- The decoder cursor implied at the end of a trace that starts at
cursor `c` (whole-image decodes are cursor-neutral here; progressive
traces never contain them). -/
def traceEnd : Int → List PNGEvent → Int
  | c, [] => c
  | _, PNGEvent.decodeRow r :: rest => traceEnd r rest
  | _, PNGEvent.restart :: rest => traceEnd (-1) rest
  | c, PNGEvent.decodeWhole :: rest => traceEnd c rest

/-- The rows of the single-row decode events of a trace, split into
epochs at each restart: `(epochsAux evs).1` is the epoch before the
first restart, `(epochsAux evs).2` the later epochs in order. -/
def epochsAux : List PNGEvent → List Int × List (List Int)
  | [] => ([], [])
  | PNGEvent.restart :: rest =>
      let r := epochsAux rest
      ([], r.1 :: r.2)
  | PNGEvent.decodeRow x :: rest =>
      let r := epochsAux rest
      (x :: r.1, r.2)
  | PNGEvent.decodeWhole :: rest => epochsAux rest

/-- All restart-delimited epochs of single-row decode events. -/
def epochs (evs : List PNGEvent) : List (List Int) :=
  (epochsAux evs).1 :: (epochsAux evs).2

/-- A list of rows that is consecutive starting right after `c`:
`[c+1, c+2, …]`. -/
def consecFrom : Int → List Int → Bool
  | _, [] => true
  | c, r :: rest => r = c + 1 && consecFrom (c + 1) rest

/-- The single-row-mode cache invariant: between calls the buffer holds
either nothing or exactly one row, and a buffered row coincides with
the decode cursor. -/
def progInv (s : PNGState) : Prop :=
  s.nBufferLines = 0 ∨ (s.nBufferLines = 1 ∧ s.nBufferStartLine = s.nLastLineRead)

/-- The 4-row, 2-band, 1-byte-per-sample progressive image of the
monotonic-forward-decode scenario. -/
def exampleProg4 : PNGParams :=
  { nRasterXSize := 1, nRasterYSize := 4, nBands := 2, nBitDepth := 8,
    bInterlaced := false, image := fun r i => 16 * r + i }

/-- A 5-row single-band 1-byte progressive image used to instantiate
universally quantified statements. -/
def exampleProg5 : PNGParams :=
  { nRasterXSize := 1, nRasterYSize := 5, nBands := 1, nBitDepth := 8,
    bInterlaced := false, image := fun r i => 7 * r + i }

/-- The 100-row interlaced image of the interlaced-restart scenario. -/
def exampleInter100 : PNGParams :=
  { nRasterXSize := 1, nRasterYSize := 100, nBands := 1, nBitDepth := 8,
    bInterlaced := true, image := fun r _ => r }

/-- A small interlaced image used for the allocation-failure analysis. -/
def exampleInter4 : PNGParams :=
  { nRasterXSize := 2, nRasterYSize := 4, nBands := 1, nBitDepth := 8,
    bInterlaced := true, image := fun r i => r + i }

/-- A 2-pixel, 2-band, 16-bit progressive image (the smallest shape on
which the 2-byte strided transfer paths are exercised with more than
one pixel). -/
def exampleProg16 : PNGParams :=
  { nRasterXSize := 2, nRasterYSize := 1, nBands := 2, nBitDepth := 16,
    bInterlaced := false, image := fun _ _ => 0 }

/-- A 2-pixel, single-band, 16-bit progressive image whose only row
decodes to the bytes `[1, 2, 3, 4]`. -/
def exampleProg16Single : PNGParams :=
  { nRasterXSize := 2, nRasterYSize := 1, nBands := 1, nBitDepth := 16,
    bInterlaced := false, image := fun _ i => i + 1 }

/-- A 4-pixel, single-band, 8-bit progressive image whose only row
decodes to the bytes `[5, 6, 7, 8]`. -/
def exampleProg8Single : PNGParams :=
  { nRasterXSize := 4, nRasterYSize := 1, nBands := 1, nBitDepth := 8,
    bInterlaced := false, image := fun _ i => i + 5 }

end PNGDataset

namespace PNGDataset

theorem load_served (p : PNGParams) (a : Bool) (s : PNGState) (nLine : Int)
    (h : servable s nLine) :
    LoadScanline p a s nLine = (CPLErr.CE_None, s, []) := by
  simp [LoadScanline, h]

theorem rowEventsN_countRow (c : Int) (k : Nat) :
    countRowDecodes (rowEventsN c k) = k := by
  induction k generalizing c with
  | zero => rfl
  | succ k ih =>
      have h := ih (c + 1)
      simp [rowEventsN, countRowDecodes, List.countP_cons, isDecodeRow] at h ⊢
      omega

theorem rowEventsN_countRestart (c : Int) (k : Nat) :
    countRestarts (rowEventsN c k) = 0 := by
  induction k generalizing c with
  | zero => rfl
  | succ k ih => simpa [rowEventsN, countRestarts, List.countP_cons, isRestart] using ih (c + 1)

theorem rowEventsN_countWhole (c : Int) (k : Nat) :
    countWholeDecodes (rowEventsN c k) = 0 := by
  induction k generalizing c with
  | zero => rfl
  | succ k ih =>
      simpa [rowEventsN, countWholeDecodes, List.countP_cons, isDecodeWhole] using ih (c + 1)

theorem countRowDecodes_cons (e : PNGEvent) (t : List PNGEvent) :
    countRowDecodes (e :: t) = countRowDecodes t + (if isDecodeRow e then 1 else 0) := by
  simp [countRowDecodes, List.countP_cons]

theorem countRestarts_cons (e : PNGEvent) (t : List PNGEvent) :
    countRestarts (e :: t) = countRestarts t + (if isRestart e then 1 else 0) := by
  simp [countRestarts, List.countP_cons]

theorem countWholeDecodes_cons (e : PNGEvent) (t : List PNGEvent) :
    countWholeDecodes (e :: t) = countWholeDecodes t + (if isDecodeWhole e then 1 else 0) := by
  simp [countWholeDecodes, List.countP_cons]

theorem countRestarts_append (l1 l2 : List PNGEvent) :
    countRestarts (l1 ++ l2) = countRestarts l1 + countRestarts l2 := by
  simp [countRestarts, List.countP_append]

theorem readLoop_eq (p : PNGParams) (nLine : Int) :
    ∀ (k : Nat) (s : PNGState), s.nLastLineRead < nLine →
      (nLine - s.nLastLineRead).toNat = k →
      readLoop p nLine k s =
        ({ s with pabyBuffer := some (rowBytes p nLine.toNat), nLastLineRead := nLine },
         rowEventsN s.nLastLineRead k) := by
  intro k
  induction k with
  | zero => intro s hlt hk; omega
  | succ k ih =>
      intro s hlt hk
      cases s with
      | mk buf bs bl lr =>
        simp only [readLoop, hlt, if_pos]
        by_cases h1 : lr + 1 < nLine
        · rw [ih _ h1 (by simp at hlt hk ⊢; omega)]
          simp [rowEventsN]
        · have hEq : lr + 1 = nLine := by simp at hlt hk ⊢; omega
          have hk0 : k = 0 := by simp at hk ⊢; omega
          subst hk0
          simp [readLoop, rowEventsN, hEq]

/-- Full characterization of a progressive-mode `LoadScanline` call that
is not served from the buffer: it succeeds, leaves the state holding
exactly the requested row (buffer = the bytes of that row, range =
`[nLine, nLine+1)`, cursor = `nLine`), and its trace is a restart then
decodes of rows `0 … nLine` when the request was at or behind the
cursor, or the decodes of rows `cursor+1 … nLine` otherwise. -/
theorem load_prog (p : PNGParams) (a : Bool) (hprog : p.bInterlaced = false)
    (s : PNGState) (nLine : Int) (h0 : 0 ≤ nLine) (hns : ¬ servable s nLine) :
    LoadScanline p a s nLine =
      (CPLErr.CE_None,
       { pabyBuffer := some (rowBytes p nLine.toNat), nBufferStartLine := nLine,
         nBufferLines := 1, nLastLineRead := nLine },
       if nLine ≤ s.nLastLineRead then
         PNGEvent.restart :: rowEventsN (-1) (nLine + 1).toNat
       else rowEventsN s.nLastLineRead (nLine - s.nLastLineRead).toNat) := by
  cases s with
  | mk buf bs bl lr =>
    simp only [LoadScanline, hns, if_neg, hprog, Bool.false_eq_true, if_false]
    by_cases hr : nLine ≤ lr
    · have h1 : (-1 : Int) < nLine := by omega
      by_cases hb : buf = none
      · have hrl := readLoop_eq p nLine (nLine + 1).toNat
          { pabyBuffer := some (List.replicate (nPixelOffsetOf p * p.nRasterXSize) 0),
            nBufferStartLine := bs, nBufferLines := bl, nLastLineRead := -1 }
          h1 (show (nLine - (-1)).toNat = (nLine + 1).toNat by omega)
        simp [hb, Restart, hr, hrl]
      · have hrl := readLoop_eq p nLine (nLine + 1).toNat
          { pabyBuffer := buf, nBufferStartLine := bs, nBufferLines := bl,
            nLastLineRead := -1 }
          h1 (show (nLine - (-1)).toNat = (nLine + 1).toNat by omega)
        simp [hb, Restart, hr, hrl]
    · have h1 : lr < nLine := by omega
      by_cases hb : buf = none
      · have hrl := readLoop_eq p nLine (nLine - lr).toNat
          { pabyBuffer := some (List.replicate (nPixelOffsetOf p * p.nRasterXSize) 0),
            nBufferStartLine := bs, nBufferLines := bl, nLastLineRead := lr }
          h1 rfl
        simp [hb, Restart, hr, hrl]
      · have hrl := readLoop_eq p nLine (nLine - lr).toNat
          { pabyBuffer := buf, nBufferStartLine := bs, nBufferLines := bl,
            nLastLineRead := lr }
          h1 rfl
        simp [hb, Restart, hr, hrl]

/-- The predicate `goodTrace` splits over trace concatenation through `traceEnd`. -/
theorem goodTrace_append (l1 l2 : List PNGEvent) :
    ∀ c : Int, goodTrace c (l1 ++ l2) =
      (goodTrace c l1 && goodTrace (traceEnd c l1) l2) := by
  induction l1 with
  | nil => intro c; simp [goodTrace, traceEnd]
  | cons e rest ih =>
      intro c
      cases e with
      | restart => simp [goodTrace, traceEnd, ih]
      | decodeWhole => simp [goodTrace, traceEnd, ih]
      | decodeRow r =>
          by_cases h : r = c + 1
          · simp [goodTrace, traceEnd, ih, h]
          · simp [goodTrace, traceEnd, h]

theorem traceEnd_append (l1 l2 : List PNGEvent) :
    ∀ c : Int, traceEnd c (l1 ++ l2) = traceEnd (traceEnd c l1) l2 := by
  induction l1 with
  | nil => intro c; simp [traceEnd]
  | cons e rest ih =>
      intro c
      cases e with
      | restart => simp [traceEnd, ih]
      | decodeWhole => simp [traceEnd, ih]
      | decodeRow r => simp [traceEnd, ih]

theorem rowEventsN_good (k : Nat) : ∀ c : Int, goodTrace c (rowEventsN c k) = true := by
  induction k with
  | zero => intro c; rfl
  | succ k ih => intro c; simp [rowEventsN, goodTrace, ih]

theorem rowEventsN_traceEnd (k : Nat) :
    ∀ c : Int, traceEnd c (rowEventsN c k) = c + k := by
  induction k with
  | zero => intro c; simp [rowEventsN, traceEnd]
  | succ k ih =>
      intro c
      simp only [rowEventsN, traceEnd, ih (c + 1)]
      omega

/-- Full characterization of an interlaced-mode `LoadScanline` call that
is not served from the buffer: a restart happens exactly when the
cursor left its sentinel, the range descriptors are set to the whole
image before the allocation is examined, and the whole-image decode
happens only when the allocation succeeded. -/
theorem load_inter (p : PNGParams) (a : Bool) (hint : p.bInterlaced = true)
    (s : PNGState) (nLine : Int) (hns : ¬ servable s nLine) :
    LoadScanline p a s nLine =
      (if a then CPLErr.CE_None else CPLErr.CE_Failure,
       { pabyBuffer := if a then some (wholeImage p) else none,
         nBufferStartLine := 0, nBufferLines := (p.nRasterYSize : Int),
         nLastLineRead := if a then (p.nRasterYSize : Int) - 1 else -1 },
       (if s.nLastLineRead = -1 then [] else [PNGEvent.restart]) ++
         (if a then [PNGEvent.decodeWhole] else [])) := by
  cases s with
  | mk buf bs bl lr =>
    by_cases hc : lr = (-1 : Int)
    · subst hc
      cases a <;> simp [LoadScanline, hns, hint, Restart]
    · cases a <;> simp [LoadScanline, hns, hint, Restart, hc]

/-- A sequence of requests that are all inside the buffered range leaves
the state untouched and performs no decoder work at all. -/
theorem run_served (p : PNGParams) (a : Bool) (s : PNGState) :
    ∀ reqs : List Int, (∀ r ∈ reqs, servable s r) → run p a s reqs = (s, []) := by
  intro reqs
  induction reqs with
  | nil => intro _; rfl
  | cons q rest ih =>
      intro h
      simp only [run, load_served p a s q (h q (by simp))]
      rw [ih (fun r hr => h r (by simp [hr]))]
      simp

/-- Each progressive `LoadScanline` call appends a well-formed segment
to the decode trace, and the trace-implied cursor matches the stored
cursor afterwards. -/
theorem load_prog_good (p : PNGParams) (a : Bool) (hprog : p.bInterlaced = false)
    (s : PNGState) (nLine : Int) (h0 : 0 ≤ nLine) :
    goodTrace s.nLastLineRead (LoadScanline p a s nLine).2.2 = true ∧
    traceEnd s.nLastLineRead (LoadScanline p a s nLine).2.2 =
      (LoadScanline p a s nLine).2.1.nLastLineRead := by
  by_cases hs : servable s nLine
  · rw [load_served p a s nLine hs]
    exact ⟨rfl, rfl⟩
  · rw [load_prog p a hprog s nLine h0 hs]
    by_cases hr : nLine ≤ s.nLastLineRead
    · simp only [hr, if_pos, goodTrace, traceEnd]
      refine ⟨rowEventsN_good _ _, ?_⟩
      rw [rowEventsN_traceEnd]
      omega
    · simp only [hr, if_neg, not_false_iff]
      refine ⟨rowEventsN_good _ _, ?_⟩
      rw [rowEventsN_traceEnd]
      omega

/-- Trace well-formedness extends from single calls to whole runs. -/
theorem run_good (p : PNGParams) (a : Bool) (hprog : p.bInterlaced = false) :
    ∀ (reqs : List Int) (s : PNGState), (∀ r ∈ reqs, 0 ≤ r) →
      goodTrace s.nLastLineRead (run p a s reqs).2 = true ∧
      traceEnd s.nLastLineRead (run p a s reqs).2 = (run p a s reqs).1.nLastLineRead := by
  intro reqs
  induction reqs with
  | nil => intro s _; exact ⟨rfl, rfl⟩
  | cons q rest ih =>
      intro s h
      have hq := load_prog_good p a hprog s q (h q (by simp))
      have hrest := ih (LoadScanline p a s q).2.1 (fun r hr => h r (by simp [hr]))
      simp only [run, goodTrace_append, traceEnd_append, hq.1, hq.2, Bool.true_and]
      exact hrest

theorem goodTrace_epochsAux (evs : List PNGEvent) :
    ∀ c : Int, goodTrace c evs = true →
      consecFrom c (epochsAux evs).1 = true ∧
      ∀ l ∈ (epochsAux evs).2, consecFrom (-1) l = true := by
  induction evs with
  | nil => intro c _; exact ⟨rfl, by simp [epochsAux]⟩
  | cons e rest ih =>
      intro c hg
      cases e with
      | decodeRow r =>
          simp only [goodTrace, Bool.and_eq_true, decide_eq_true_eq] at hg
          have h2 := ih (c + 1) hg.2
          refine ⟨?_, ?_⟩
          · simp [epochsAux, consecFrom, hg.1, h2.1]
          · simpa [epochsAux] using h2.2
      | restart =>
          simp only [goodTrace] at hg
          have h2 := ih (-1) hg
          refine ⟨rfl, ?_⟩
          intro l hl
          simp only [epochsAux, List.mem_cons] at hl
          rcases hl with hl | hl
          · exact hl ▸ h2.1
          · exact h2.2 l hl
      | decodeWhole =>
          simp only [goodTrace] at hg
          have h2 := ih c hg
          exact ⟨by simpa [epochsAux] using h2.1, by simpa [epochsAux] using h2.2⟩

theorem consecFrom_lt (l : List Int) :
    ∀ c : Int, consecFrom c l = true → ∀ x ∈ l, c < x := by
  induction l with
  | nil => intro c _ x hx; cases hx
  | cons r rest ih =>
      intro c hc x hx
      simp only [consecFrom, Bool.and_eq_true, decide_eq_true_eq] at hc
      rcases List.mem_cons.mp hx with hx | hx
      · omega
      · have := ih (c + 1) hc.2 x hx
        omega

theorem consecFrom_nodup (l : List Int) :
    ∀ c : Int, consecFrom c l = true → l.Nodup := by
  induction l with
  | nil => intro _ _; exact List.nodup_nil
  | cons r rest ih =>
      intro c hc
      simp only [consecFrom, Bool.and_eq_true, decide_eq_true_eq] at hc
      refine List.nodup_cons.mpr ⟨fun hmem => ?_, ih (c + 1) hc.2⟩
      have := consecFrom_lt rest (c + 1) hc.2 r hmem
      omega

/-- In a well-formed trace every restart-delimited epoch decodes
pairwise-distinct rows. -/
theorem goodTrace_epochs_nodup (evs : List PNGEvent) (c : Int)
    (hg : goodTrace c evs = true) : ∀ l ∈ epochs evs, l.Nodup := by
  have h := goodTrace_epochsAux evs c hg
  intro l hl
  simp only [epochs, List.mem_cons] at hl
  rcases hl with hl | hl
  · exact hl ▸ consecFrom_nodup _ _ h.1
  · exact consecFrom_nodup _ _ (h.2 l hl)

end PNGDataset

open PNGDataset

/-- Claim C9: `Restart` modifies only decoder-side state.  On the cache
state it sets `nLastLineRead` to the `-1` sentinel and leaves
`pabyBuffer`, `nBufferStartLine` and `nBufferLines` exactly as they
were; the destruction and recreation of the PNG read structures, the
file rewind and the header re-read are decoder-side effects recorded as
the single `restart` event. -/
theorem claim_C9 (s : PNGState) :
    (Restart s).1.pabyBuffer = s.pabyBuffer ∧
    (Restart s).1.nBufferStartLine = s.nBufferStartLine ∧
    (Restart s).1.nBufferLines = s.nBufferLines ∧
    (Restart s).1.nLastLineRead = -1 ∧
    (Restart s).2 = [PNGEvent.restart] :=
  ⟨rfl, rfl, rfl, rfl, rfl⟩

/-- Claim C1: a row request inside the buffered range returns `CE_None`
immediately with no decode work, no allocation and the state (buffer,
range descriptors, decode cursor) unchanged; a request outside the
range that succeeds performs at least one decode step (single-row or
whole-image) — i.e. a row is servable without decoding iff it lies in
the buffered range. -/
theorem claim_C1 (p : PNGParams) (a : Bool) (s : PNGState) (nLine : Int)
    (h0 : 0 ≤ nLine) :
    (servable s nLine → LoadScanline p a s nLine = (CPLErr.CE_None, s, [])) ∧
    (¬ servable s nLine → (LoadScanline p a s nLine).1 = CPLErr.CE_None →
      1 ≤ countRowDecodes (LoadScanline p a s nLine).2.2 +
          countWholeDecodes (LoadScanline p a s nLine).2.2) := by
  constructor
  · intro hs
    exact load_served p a s nLine hs
  · intro hns hok
    by_cases hi : p.bInterlaced
    · rw [load_inter p a hi s nLine hns] at hok ⊢
      cases a
      · simp at hok
      · by_cases hc : s.nLastLineRead = -1 <;>
          simp [hc, countRowDecodes_cons, countWholeDecodes_cons,
            countRowDecodes, countWholeDecodes, isDecodeRow, isDecodeWhole]
    · have hprog : p.bInterlaced = false := by simpa using hi
      rw [load_prog p a hprog s nLine h0 hns]
      by_cases hr : nLine ≤ s.nLastLineRead
      · simp only [hr, if_pos, countRowDecodes_cons, countWholeDecodes_cons,
          rowEventsN_countRow, rowEventsN_countWhole, isDecodeRow, isDecodeWhole]
        simp
        omega
      · simp only [hr, if_neg, not_false_iff, rowEventsN_countRow, rowEventsN_countWhole]
        omega

/-- Witness for C1 at a concrete dataset: on the fresh 5-row
progressive image, row 2 is not buffered and its successful load
performs decode work. -/
theorem claim_C1_witness :
    1 ≤ countRowDecodes (LoadScanline exampleProg5 true PNGDataset.init 2).2.2 +
        countWholeDecodes (LoadScanline exampleProg5 true PNGDataset.init 2).2.2 :=
  (claim_C1 exampleProg5 true PNGDataset.init 2 (by decide)).2 (by decide) (by decide)

/-- Claim C10: in progressive mode, a successful `LoadScanline` call
not served from the buffer leaves `nBufferStartLine = nLine`,
`nBufferLines = 1` and `nLastLineRead = nLine`; consequently the
single-row invariant (`nBufferLines` is 0 or 1, and a buffered row
coincides with the decode cursor) holds initially and is preserved by
every `LoadScanline` and `FlushCache` call, so it holds at every point
between calls. -/
theorem claim_C10 (p : PNGParams) (a : Bool) (hprog : p.bInterlaced = false) :
    (∀ (s : PNGState) (nLine : Int), 0 ≤ nLine → ¬ servable s nLine →
       (LoadScanline p a s nLine).1 = CPLErr.CE_None ∧
       (LoadScanline p a s nLine).2.1.nBufferStartLine = nLine ∧
       (LoadScanline p a s nLine).2.1.nBufferLines = 1 ∧
       (LoadScanline p a s nLine).2.1.nLastLineRead = nLine) ∧
    progInv PNGDataset.init ∧
    (∀ (s : PNGState) (nLine : Int), 0 ≤ nLine → progInv s →
       progInv (LoadScanline p a s nLine).2.1) ∧
    (∀ s : PNGState, progInv s → progInv (FlushCache s)) := by
  refine ⟨?_, Or.inl rfl, ?_, ?_⟩
  · intro s nLine h0 hns
    rw [load_prog p a hprog s nLine h0 hns]
    exact ⟨rfl, rfl, rfl, rfl⟩
  · intro s nLine h0 hinv
    by_cases hs : servable s nLine
    · rw [load_served p a s nLine hs]
      exact hinv
    · rw [load_prog p a hprog s nLine h0 hs]
      exact Or.inr ⟨rfl, rfl⟩
  · intro s hinv
    by_cases hb : s.pabyBuffer = none
    · simp only [FlushCache, hb, ne_eq, not_true_eq_false, if_false]
      exact hinv
    · simp only [FlushCache, hb, ne_eq, not_false_eq_true, if_true]
      exact Or.inl rfl

/-- Witness for C10: loading row 3 of the fresh 5-row progressive image
establishes the single-row invariant. -/
theorem claim_C10_witness :
    progInv (LoadScanline exampleProg5 true PNGDataset.init 3).2.1 :=
  (claim_C10 exampleProg5 true rfl).2.2.1 PNGDataset.init 3 (by decide) (Or.inl rfl)

/-- Claim C3: progressive monotonic forward decode.  (1) A call not
served from the buffer decodes exactly the rows from the old cursor
(exclusive) to the requested row (inclusive): `nLine + 1` rows after a
restart (which happens iff the request is at or behind the cursor),
`nLine - cursor` rows otherwise; a served call performs no decode.
(2) Over any request sequence, the rows decoded between two consecutive
restarts are pairwise distinct — no row is decoded twice without an
intervening restart.  (3) The concrete scenario: on the 4-row 2-band
progressive image, requesting rows 0,1,2,3 performs 4 single-row
decodes and 0 restarts, and a subsequent request for row 1 performs
exactly 1 restart and 2 decodes (rows 0 and 1). -/
theorem claim_C3 (p : PNGParams) (a : Bool) (hprog : p.bInterlaced = false) :
    (∀ (s : PNGState) (nLine : Int), 0 ≤ nLine → ¬ servable s nLine →
       countRowDecodes (LoadScanline p a s nLine).2.2 =
         (if nLine ≤ s.nLastLineRead then (nLine + 1).toNat
          else (nLine - s.nLastLineRead).toNat) ∧
       countRestarts (LoadScanline p a s nLine).2.2 =
         (if nLine ≤ s.nLastLineRead then 1 else 0)) ∧
    (∀ (s : PNGState) (nLine : Int), servable s nLine →
       (LoadScanline p a s nLine).2.2 = []) ∧
    (∀ (s : PNGState) (reqs : List Int), (∀ r ∈ reqs, 0 ≤ r) →
       ∀ l ∈ epochs (run p a s reqs).2, l.Nodup) ∧
    countRowDecodes (run exampleProg4 true PNGDataset.init [0, 1, 2, 3]).2 = 4 ∧
    countRestarts (run exampleProg4 true PNGDataset.init [0, 1, 2, 3]).2 = 0 ∧
    (LoadScanline exampleProg4 true (run exampleProg4 true PNGDataset.init [0, 1, 2, 3]).1 1).2.2 =
      [PNGEvent.restart, PNGEvent.decodeRow 0, PNGEvent.decodeRow 1] := by
  refine ⟨?_, ?_, ?_, by decide, by decide, by decide⟩
  · intro s nLine h0 hns
    rw [load_prog p a hprog s nLine h0 hns]
    by_cases hr : nLine ≤ s.nLastLineRead <;>
      simp [hr, countRowDecodes_cons, countRestarts_cons, rowEventsN_countRow,
        rowEventsN_countRestart, isDecodeRow, isRestart]
  · intro s nLine hs
    rw [load_served p a s nLine hs]
  · intro s reqs h
    exact goodTrace_epochs_nodup _ _ (run_good p a hprog reqs s h).1

/-- Witness for C3: the concrete scenario facts of the claim, obtained
by instantiating the theorem on the 4-row 2-band progressive image. -/
theorem claim_C3_witness :
    countRowDecodes (run exampleProg4 true PNGDataset.init [0, 1, 2, 3]).2 = 4 ∧
    countRestarts (run exampleProg4 true PNGDataset.init [0, 1, 2, 3]).2 = 0 ∧
    (LoadScanline exampleProg4 true (run exampleProg4 true PNGDataset.init [0, 1, 2, 3]).1 1).2.2 =
      [PNGEvent.restart, PNGEvent.decodeRow 0, PNGEvent.decodeRow 1] :=
  ⟨(claim_C3 exampleProg4 true rfl).2.2.2.1,
   (claim_C3 exampleProg4 true rfl).2.2.2.2.1,
   (claim_C3 exampleProg4 true rfl).2.2.2.2.2⟩

/-- Claim C4: in progressive mode, loading row `k` on a fresh dataset
and then row `j < k` triggers no restart in the first call and exactly
one restart in the second, both calls succeed, the state after the
second call is identical to the state after a fresh first-ever load of
row `j`, and consequently `IReadBlock` delivers byte-identical data for
row `j` in both histories, for every band and caller buffer. -/
theorem claim_C4 (p : PNGParams) (a : Bool) (hprog : p.bInterlaced = false)
    (j k : Int) (h0 : 0 ≤ j) (hjk : j < k) (hk : k < (p.nRasterYSize : Int)) :
    countRestarts (LoadScanline p a PNGDataset.init k).2.2 = 0 ∧
    (LoadScanline p a PNGDataset.init k).1 = CPLErr.CE_None ∧
    countRestarts (LoadScanline p a (LoadScanline p a PNGDataset.init k).2.1 j).2.2 = 1 ∧
    (LoadScanline p a (LoadScanline p a PNGDataset.init k).2.1 j).1 = CPLErr.CE_None ∧
    (LoadScanline p a (LoadScanline p a PNGDataset.init k).2.1 j).2.1 =
      (LoadScanline p a PNGDataset.init j).2.1 ∧
    (∀ (nBand : Nat) (pImage : List Nat),
       (IReadBlock p a nBand (LoadScanline p a PNGDataset.init k).2.1 j pImage).2.2.1 =
       (IReadBlock p a nBand PNGDataset.init j pImage).2.2.1) := by
  have h0k : (0 : Int) ≤ k := by omega
  have hnsk : ¬ servable PNGDataset.init k := by
    simp [servable, PNGDataset.init]
  have hL1 := load_prog p a hprog PNGDataset.init k h0k hnsk
  rw [if_neg (by simp [PNGDataset.init]; omega)] at hL1
  have hnsj : ¬ servable PNGDataset.init j := by
    simp [servable, PNGDataset.init]
  have hL3 := load_prog p a hprog PNGDataset.init j h0 hnsj
  rw [if_neg (by simp [PNGDataset.init]; omega)] at hL3
  have hnsj2 : ¬ servable
      { pabyBuffer := some (rowBytes p k.toNat), nBufferStartLine := k,
        nBufferLines := 1, nLastLineRead := k } j := by
    simp [servable]
    omega
  have hL2 := load_prog p a hprog
      { pabyBuffer := some (rowBytes p k.toNat), nBufferStartLine := k,
        nBufferLines := 1, nLastLineRead := k } j h0 hnsj2
  rw [if_pos (by simp; omega)] at hL2
  have hstate1 : (LoadScanline p a PNGDataset.init k).2.1 =
      { pabyBuffer := some (rowBytes p k.toNat), nBufferStartLine := k,
        nBufferLines := 1, nLastLineRead := k } := by rw [hL1]
  have herr1 : (LoadScanline p a PNGDataset.init k).1 = CPLErr.CE_None := by rw [hL1]
  have htrace1 : (LoadScanline p a PNGDataset.init k).2.2 =
      rowEventsN PNGDataset.init.nLastLineRead
        (k - PNGDataset.init.nLastLineRead).toNat := by rw [hL1]
  refine ⟨?_, herr1, ?_, ?_, ?_, ?_⟩
  · rw [htrace1]
    exact rowEventsN_countRestart _ _
  · rw [hstate1, hL2]
    simp [countRestarts_cons, rowEventsN_countRestart, isRestart]
  · rw [hstate1, hL2]
  · rw [hstate1, hL2, hL3]
  · intro nBand pImage
    rw [hstate1]
    simp [IReadBlock, hL2, hL3]

/-- Witness for C4 on the 5-row progressive image with k = 3, j = 1:
the second call restarts once, reaches the same state as a fresh load
of row 1 and delivers identical bytes through `IReadBlock`. -/
theorem claim_C4_witness :
    countRestarts (LoadScanline exampleProg5 true
      (LoadScanline exampleProg5 true PNGDataset.init 3).2.1 1).2.2 = 1 ∧
    (LoadScanline exampleProg5 true
      (LoadScanline exampleProg5 true PNGDataset.init 3).2.1 1).2.1 =
      (LoadScanline exampleProg5 true PNGDataset.init 1).2.1 ∧
    (IReadBlock exampleProg5 true 1
      (LoadScanline exampleProg5 true PNGDataset.init 3).2.1 1 [0]).2.2.1 =
      (IReadBlock exampleProg5 true 1 PNGDataset.init 1 [0]).2.2.1 := by
  have h := claim_C4 exampleProg5 true rfl 1 3 (by decide) (by decide) (by decide)
  exact ⟨h.2.2.1, h.2.2.2.2.1, h.2.2.2.2.2 1 [0]⟩

/-- Claim C5: for an interlaced image, the first `LoadScanline` call on
a fresh dataset (for any row) performs exactly one whole-image decode
and sets the buffered range to the whole image; every subsequent call
for any in-range row returns success without further decoding and
without restarting, leaving the state untouched. -/
theorem claim_C5 (p : PNGParams) (hint : p.bInterlaced = true) (r0 : Int)
    (h00 : 0 ≤ r0) (hr0 : r0 < (p.nRasterYSize : Int)) :
    (LoadScanline p true PNGDataset.init r0).1 = CPLErr.CE_None ∧
    (LoadScanline p true PNGDataset.init r0).2.2 = [PNGEvent.decodeWhole] ∧
    (LoadScanline p true PNGDataset.init r0).2.1.nBufferStartLine = 0 ∧
    (LoadScanline p true PNGDataset.init r0).2.1.nBufferLines = (p.nRasterYSize : Int) ∧
    (∀ (a : Bool) (reqs : List Int),
       (∀ r ∈ reqs, 0 ≤ r ∧ r < (p.nRasterYSize : Int)) →
       run p a (LoadScanline p true PNGDataset.init r0).2.1 reqs =
         ((LoadScanline p true PNGDataset.init r0).2.1, [])) := by
  have hns : ¬ servable PNGDataset.init r0 := by
    simp [servable, PNGDataset.init]
  have hL := load_inter p true hint PNGDataset.init r0 hns
  have hcur : PNGDataset.init.nLastLineRead = (-1 : Int) := rfl
  simp [hcur] at hL
  have hstate : (LoadScanline p true PNGDataset.init r0).2.1 =
      { pabyBuffer := some (wholeImage p), nBufferStartLine := 0,
        nBufferLines := (p.nRasterYSize : Int),
        nLastLineRead := (p.nRasterYSize : Int) - 1 } := by rw [hL]
  refine ⟨by rw [hL], by rw [hL], by rw [hstate], by rw [hstate], ?_⟩
  intro a reqs h
  rw [hstate]
  apply run_served
  intro r hr
  have := h r hr
  simp [servable]
  omega

/-- Witness for C5 on the small interlaced image: the first request
(row 2) decodes the whole image once; the requests 0, 3, 1 that follow
do nothing. -/
theorem claim_C5_witness :
    (LoadScanline exampleInter4 true PNGDataset.init 2).2.2 = [PNGEvent.decodeWhole] ∧
    run exampleInter4 true (LoadScanline exampleInter4 true PNGDataset.init 2).2.1 [0, 3, 1] =
      ((LoadScanline exampleInter4 true PNGDataset.init 2).2.1, []) := by
  have h := claim_C5 exampleInter4 rfl 2 (by decide) (by decide)
  exact ⟨h.2.1, h.2.2.2.2 true [0, 3, 1] (by decide)⟩

/-- Counterexample to C6 as stated: on the 100-row interlaced image,
after requesting row 50 (one whole-image decode), the request for row
10 does NOT trigger a restart or a second whole-image decode — it is
served from the whole-image buffer with an empty event trace, because
the early-return range check precedes the cursor-sentinel check. -/
theorem claim_C6_counterexample :
    (LoadScanline exampleInter100 true PNGDataset.init 50).2.2 = [PNGEvent.decodeWhole] ∧
    (LoadScanline exampleInter100 true
      (LoadScanline exampleInter100 true PNGDataset.init 50).2.1 10).2.2 = [] ∧
    countRestarts (LoadScanline exampleInter100 true
      (LoadScanline exampleInter100 true PNGDataset.init 50).2.1 10).2.2 = 0 ∧
    countWholeDecodes (LoadScanline exampleInter100 true
      (LoadScanline exampleInter100 true PNGDataset.init 50).2.1 10).2.2 = 0 := by
  refine ⟨by decide, by decide, by decide, by decide⟩

/-- Claim C6 (amended): on the 100-row interlaced image, requesting row
50 performs exactly one whole-image decode, and the subsequent request
for row 10 is served from the whole-image buffer: it returns success
immediately with no restart and no decode, leaving the state
unchanged.  (A second restart-plus-redecode occurs only if the buffer
has been flushed while the cursor is away from its sentinel.) -/
theorem claim_C6 :
    (LoadScanline exampleInter100 true PNGDataset.init 50).2.2 = [PNGEvent.decodeWhole] ∧
    LoadScanline exampleInter100 true
      (LoadScanline exampleInter100 true PNGDataset.init 50).2.1 10 =
      (CPLErr.CE_None, (LoadScanline exampleInter100 true PNGDataset.init 50).2.1, []) := by
  refine ⟨by decide, by decide⟩

/-- Claim C7 analysis (allocation failure in the interlaced branch):
the call does return `CE_Failure`, but contrary to the claim the range
descriptors are NOT left as they were — `nBufferStartLine` and
`nBufferLines` are assigned BEFORE the allocation is attempted and are
not restored on failure.  On a fresh 4-row interlaced dataset whose
whole-image allocation fails, `nBufferLines` goes from 0 to 4 while
`pabyBuffer` stays `NULL`; as a consequence the very next request for
any row is (spuriously) reported as buffered and succeeds with a
`NULL` buffer. -/
theorem claim_C7 :
    (LoadScanline exampleInter4 false PNGDataset.init 0).1 = CPLErr.CE_Failure ∧
    PNGDataset.init.nBufferLines = 0 ∧
    (LoadScanline exampleInter4 false PNGDataset.init 0).2.1.nBufferLines = 4 ∧
    (LoadScanline exampleInter4 false PNGDataset.init 0).2.1.pabyBuffer = none ∧
    (LoadScanline exampleInter4 false
      (LoadScanline exampleInter4 false PNGDataset.init 0).2.1 2).1 = CPLErr.CE_None ∧
    (LoadScanline exampleInter4 false
      (LoadScanline exampleInter4 false PNGDataset.init 0).2.1 2).2.1.pabyBuffer = none := by
  refine ⟨by decide, rfl, by decide, by decide, by decide, by decide⟩

/-- Claim C2 analysis (interleave round-trip): the round trip fails for
2-byte samples with more than one band.  The 2-byte strided loops of
`IWriteBlock`/`IReadBlock` index the caller buffer at `[i]` and
`[i+1]` instead of `[2*i]` and `[2*i+1]`, so on the 2-pixel 2-band
16-bit image, writing `[1,2,3,4]` to band 1 (and `[5,6,7,8]` to band
2) of row 0 and reading band 1 back into a zeroed buffer yields
`[1,2,3,0]`, not the written `[1,2,3,4]`. -/
theorem claim_C2 :
    (IWriteBlock exampleProg16 true 1 PNGDataset.init 0 [1, 2, 3, 4]).1 = CPLErr.CE_None ∧
    (IReadBlock exampleProg16 true 1
      (IWriteBlock exampleProg16 true 2
        (IWriteBlock exampleProg16 true 1 PNGDataset.init 0 [1, 2, 3, 4]).2.1
        0 [5, 6, 7, 8]).2.1
      0 [0, 0, 0, 0]).2.2.1 = [1, 2, 3, 0] ∧
    ([1, 2, 3, 0] : List Nat) ≠ [1, 2, 3, 4] := by
  refine ⟨by decide, by decide, by decide⟩

/-- Claim C8 analysis (bulk-copy equivalence): for `band_count == 1`
the two transfer paths agree at sample size 1 but NOT at sample size
2.  On the single-band 16-bit image whose row is `[1,2,3,4]`, the
bulk-copy path (the one `IReadBlock` actually takes) yields
`[1,2,3,4]`, while the general 2-byte strided gather loop, run on the
same buffered row with the same stride, yields `[1,3,4,0]` because it
writes the bytes of pixel `i` to `pImage[i]`/`pImage[i+1]` instead of
`pImage[2*i]`/`pImage[2*i+1]`. -/
theorem claim_C8 :
    (IReadBlock exampleProg16Single true 1 PNGDataset.init 0 [0, 0, 0, 0]).2.2.1 =
      [1, 2, 3, 4] ∧
    stridedGather2
      (fun j => ((LoadScanline exampleProg16Single true PNGDataset.init 0).2.1.pabyBuffer.getD []).getD
        (scanlineBase exampleProg16Single
          (LoadScanline exampleProg16Single true PNGDataset.init 0).2.1 1 0 + (j : Int)).toNat 0)
      (nPixelOffsetOf exampleProg16Single) exampleProg16Single.nRasterXSize
      [0, 0, 0, 0] = [1, 3, 4, 0] ∧
    ([1, 3, 4, 0] : List Nat) ≠ [1, 2, 3, 4] ∧
    (IReadBlock exampleProg8Single true 1 PNGDataset.init 0 [0, 0, 0, 0]).2.2.1 =
      stridedGather1
        (fun j => ((LoadScanline exampleProg8Single true PNGDataset.init 0).2.1.pabyBuffer.getD []).getD
          (scanlineBase exampleProg8Single
            (LoadScanline exampleProg8Single true PNGDataset.init 0).2.1 1 0 + (j : Int)).toNat 0)
        (nPixelOffsetOf exampleProg8Single) exampleProg8Single.nRasterXSize
        [0, 0, 0, 0] := by
  refine ⟨by decide, by decide, by decide, by decide⟩
